import Mathlib

/-!
Shallow embedding of the dashboard data-access layer of `src/api.ts`
(Honeypot_API).  The functions modelled here are `dashboardApi.getStats`,
`dashboardApi.getScamTypeDistribution`, `dashboardApi.getDailyDetections`
and `systemLogApi.createLog`.

Modelling conventions
* The ambient authenticated user (`supabase.auth.getUser()`) is passed as an
  explicit `Option String` argument (the user id, or `none`).
* The record store (supabase) is a `Store` value: the contents of the three
  tables the dashboard reads, plus one injectable error per query site.  A
  query site with injected error `some e` answers that query with error `e`
  and no data (the supabase client reports errors in the response object;
  it does not reject the promise).  With no injected error the store answers
  a filtered query with exactly the rows matching the filter, in table order.
* Timestamps (`created_at`) are UTC milliseconds since the epoch, as `Int`.
  `new Date(x).toISOString().split('T')[0]` (UTC calendar-date truncation)
  is modelled by the day number `dayOf t = t / 86400000` (floor division,
  which is what `Int` division is for a positive divisor); calendar dates
  are in order-preserving bijection with day numbers.
  `startDate.setDate(startDate.getDate() - days)` is modelled as
  `now - days * msPerDay` (UTC, fixed-length days).
* A thrown error / rejected promise is `Except.error`; a normal return is
  `Except.ok`.
* JS plain objects used as string-keyed maps (`Record<string, number>`)
  are modelled as association lists in key-insertion order, which is the
  `Object.entries` enumeration order for the non-numeric label keys used
  here.  `distribution[k] = (distribution[k] || 0) + 1` is `bumpKey`.
-/

/-- Store errors; the payload is opaque, a message string suffices. -/
abbrev Err := String

/-- A row of the `messages` table, restricted to the columns the dashboard
queries use.  `scam_type` is nullable (`Option`); the empty string is a
possible non-null value. -/
structure Message where
  user_id : String
  is_scam : Bool
  scam_type : Option String
  created_at : Int
deriving DecidableEq, Repr

/-- A row of the `conversations` table (columns used by the dashboard). -/
structure Conversation where
  user_id : String
  status : String
deriving DecidableEq, Repr

/-- A row of the `intelligence` table (columns used by the dashboard). -/
structure IntelligenceRec where
  user_id : String
deriving DecidableEq, Repr

/-- The record store: table contents plus an injectable failure for each
query site appearing in the modelled functions.  `none` means the query
succeeds, `some e` means the store reports error `e` for that query. -/
structure Store where
  messages : List Message
  conversations : List Conversation
  intelligence : List IntelligenceRec
  statsMsgCountError : Option Err
  statsScamCountError : Option Err
  statsConvCountError : Option Err
  statsIntelCountError : Option Err
  distQueryError : Option Err
  dailyQueryError : Option Err
  logInsertError : Option Err
deriving DecidableEq, Repr

/-- The `DashboardStats` result record (src/api.ts lines 387-392). -/
structure DashboardStats where
  totalMessages : Nat
  totalScams : Nat
  activeConversations : Nat
  intelligenceExtracted : Nat
deriving DecidableEq, Repr

/-- The shape of a supabase `count` query response: the `count` field (null
on failure) and the `error` field.  The supabase client returns both in the
resolved value; it never rejects. -/
structure CountResponse where
  count : Option Nat
  error : Option Err
deriving DecidableEq, Repr

/-- A count query at a site with injected error `err`, over a table slice
whose matching-row count is `n`. -/
def countQuery (err : Option Err) (n : Nat) : CountResponse :=
  match err with
  | some e => CountResponse.mk none (some e)
  | none => CountResponse.mk (some n) none

/-- `dashboardApi.getStats` (src/api.ts lines 355-393).  With no user it
returns the zero record before touching the store.  Otherwise it issues the
four count queries (scoped to the user) and reads only the `count` field of
each response — the source never inspects the `error` field of these four
responses — defaulting a null count to 0 (`count || 0`). -/
def getStats (user : Option String) (s : Store) : Except Err DashboardStats :=
  match user with
  | none => Except.ok (DashboardStats.mk 0 0 0 0)
  | some uid =>
    let messagesCount := countQuery s.statsMsgCountError
      ((s.messages.filter (fun m => m.user_id == uid)).length)
    let scamsCount := countQuery s.statsScamCountError
      ((s.messages.filter (fun m => m.user_id == uid && m.is_scam)).length)
    let activeConvCount := countQuery s.statsConvCountError
      ((s.conversations.filter (fun c => c.user_id == uid && c.status == "active")).length)
    let intelCount := countQuery s.statsIntelCountError
      ((s.intelligence.filter (fun r => r.user_id == uid)).length)
    Except.ok (DashboardStats.mk
      (messagesCount.count.getD 0)
      (scamsCount.count.getD 0)
      (activeConvCount.count.getD 0)
      (intelCount.count.getD 0))

/-- The rows retrieved by the `getScamTypeDistribution` query
(src/api.ts lines 399-404): user-scoped, `is_scam = true`, and
`scam_type` not null.  Rows whose `scam_type` is the empty string pass
this filter. -/
def distRetrieved (uid : String) (s : Store) : List Message :=
  s.messages.filter (fun m => m.user_id == uid && m.is_scam && m.scam_type.isSome)

/-- `distribution[t] = (distribution[t] || 0) + 1` on a JS object modelled
as an insertion-ordered association list: bump the existing entry, or append
a fresh entry with count 1. -/
def bumpKey (dist : List (String × Nat)) (t : String) : List (String × Nat) :=
  if dist.any (fun p => p.1 == t) then
    dist.map (fun p => if p.1 == t then (p.1, p.2 + 1) else p)
  else
    dist ++ [(t, 1)]

/-- The `forEach` accumulation of src/api.ts lines 408-413: each row whose
`scam_type` is truthy (non-null and not the empty string) bumps its label;
null and empty-string labels are skipped. -/
def buildDistribution (data : List Message) : List (String × Nat) :=
  data.foldl (fun dist m =>
    match m.scam_type with
    | some t => if t = "" then dist else bumpKey dist t
    | none => dist) []

/-- `dashboardApi.getScamTypeDistribution` (src/api.ts lines 395-419).
The result list models the `ScamTypeDistribution[]` of `{type, count}`
records via `Object.entries` of the accumulated map. -/
def getScamTypeDistribution (user : Option String) (s : Store) :
    Except Err (List (String × Nat)) :=
  match user with
  | none => Except.ok []
  | some uid =>
    match s.distQueryError with
    | some e => Except.error e
    | none => Except.ok (buildDistribution (distRetrieved uid s))

/-- Milliseconds per day. -/
def msPerDay : Int := 86400000

/-- UTC calendar date of a millisecond timestamp, as a day number
(`toISOString().split('T')[0]` up to the date/day-number bijection). -/
def dayOf (t : Int) : Int := t / msPerDay

/-- The rows retrieved by the `getDailyDetections` query (src/api.ts lines
428-433): user-scoped, `is_scam = true`, `created_at >= startDate` where
`startDate` is `now` minus `days` days.  No upper bound and no limit. -/
def dailyRetrieved (uid : String) (s : Store) (now : Int) (days : Nat) : List Message :=
  s.messages.filter (fun m =>
    m.user_id == uid && m.is_scam && decide (now - (days : Int) * msPerDay ≤ m.created_at))

/-- Lookup in the `detectionsByDate` map of src/api.ts lines 437-441 with
the `|| 0` default: the number of retrieved rows whose UTC date is `d`
(0 when the date never occurs, i.e. is absent from the map). -/
def detectionsByDate (data : List Message) (d : Int) : Nat :=
  (data.filter (fun m => dayOf m.created_at == d)).length

/-- `dashboardApi.getDailyDetections` (src/api.ts lines 421-455).  With no
user it returns `[]` before touching the store.  Otherwise it retrieves the
scam rows since the cutoff, buckets them by UTC date, and emits one
`{date, count}` bucket per loop index `i = days-1, ..., 0`, the bucket for
index `i` carrying the date of `now` minus `i` days. -/
def getDailyDetections (user : Option String) (s : Store) (now : Int) (days : Nat) :
    Except Err (List (Int × Nat)) :=
  match user with
  | none => Except.ok []
  | some uid =>
    match s.dailyQueryError with
    | some e => Except.error e
    | none =>
      let data := dailyRetrieved uid s now days
      Except.ok (((List.range days).reverse).map (fun (i : Nat) =>
        (dayOf (now - (i : Int) * msPerDay),
         detectionsByDate data (dayOf (now - (i : Int) * msPerDay)))))

/-- `systemLogApi.createLog` (src/api.ts lines 344-350).  The first
component is what the function returns to its caller (a thrown error would
be `Except.error`); the second is the list of errors written to the
diagnostic channel (`console.error`).  The insert error never reaches the
first component. -/
def createLog {α : Type} (log : α) (s : Store) : Except Err Unit × List Err :=
  match s.logInsertError with
  | some e => (Except.ok (), [e])
  | none => (Except.ok (), [])

/-- Spec-level description of first-occurrence deduplication: the distinct
elements of a list, each at its first occurrence, in order. -/
def firstOccurrences : List String → List String
  | [] => []
  | t :: ts => t :: (firstOccurrences ts).filter (fun b => !(b == t))

/-- The label sequence actually accumulated by `buildDistribution`: the
non-null labels of the rows, with empty-string labels dropped. -/
def labelsOf (data : List Message) : List String :=
  (data.filterMap Message.scam_type).filter (fun t => !(t == ""))

/-- The store with every empty-string-labelled message row removed
(used to state that such rows never influence the distribution). -/
def dropEmptyLabelRows (s : Store) : Store :=
  Store.mk (s.messages.filter (fun m => !(m.scam_type == some "")))
    s.conversations s.intelligence
    s.statsMsgCountError s.statsScamCountError s.statsConvCountError
    s.statsIntelCountError s.distQueryError s.dailyQueryError s.logInsertError

/-- A store with no injected failures and a little data for each table:
user `u` owns four messages (three scam-flagged, one of them old and one
lacking a label), one active and one closed conversation, and two
intelligence records; user `v` owns one scam message. -/
def demoStore : Store :=
  Store.mk
    [Message.mk "u" true (some "phishing") 1728001000,
     Message.mk "u" true (some "phishing") 1555200500,
     Message.mk "u" false none 1641600000,
     Message.mk "v" true (some "crypto") 1641600000,
     Message.mk "u" true (some "crypto") 864000000]
    [Conversation.mk "u" "active", Conversation.mk "u" "closed",
     Conversation.mk "v" "active"]
    [IntelligenceRec.mk "u", IntelligenceRec.mk "u"]
    none none none none none none none

/-- A store whose total-messages count query fails while the other three
succeed; user `u` owns one scam message and one non-scam message. -/
def statsFailStore : Store :=
  Store.mk
    [Message.mk "u" true (some "phishing") 0, Message.mk "u" false none 0]
    [] []
    (some "messages count failed") none none none
    none none none

/-- A store whose scam-type-distribution query and daily-detections query
both fail. -/
def queryFailStore : Store :=
  Store.mk [] [] [] none none none none
    (some "dist query failed") (some "daily query failed") none

/-- A store holding two scam rows of user `u` labelled with the empty
string (non-null, hence retrieved) around one labelled row. -/
def emptyLabelStore : Store :=
  Store.mk
    [Message.mk "u" true (some "") 0,
     Message.mk "u" true (some "phishing") 0,
     Message.mk "u" true (some "") 1]
    [] [] none none none none none none none

/-- Claim C5: with no identified caller, `getStats` returns the zero-valued
stats record.  The store is universally quantified, so the result depends on
no table contents and on no injected store failure: no query is consulted,
and the result is a normal return, not an error. -/
theorem getStats_no_caller (s : Store) :
    getStats none s = Except.ok (DashboardStats.mk 0 0 0 0) := rfl

/-- Claim C10: with no identified caller, `getDailyDetections` returns the
empty list — length 0, not `days` — for every `days`, without consulting
the store (universally quantified, failures included) and without error. -/
theorem getDailyDetections_no_caller (s : Store) (now : Int) (days : Nat) :
    getDailyDetections none s now days = Except.ok [] := rfl

/-- Claim C8: `createLog` never propagates a store failure: for every input
log record and store, the value returned to the caller is a normal `ok`,
and the diagnostic channel receives exactly the insert error, if any. -/
theorem createLog_never_propagates {α : Type} (log : α) (s : Store) :
    (createLog log s).1 = Except.ok () ∧ (createLog log s).2 = s.logInsertError.toList := by
  cases h : s.logInsertError <;> simp [createLog, h]

/-- Claim C2 counterexample: in `statsFailStore` the total-messages count
query fails, yet `getStats` returns normally with a stats tuple — the
failed component silently defaulted to 0 and the scam count still filled
in — instead of failing with the store error.  (The source never inspects
the `error` field of the four count responses, and the supabase client
reports query failures in the response rather than rejecting.) -/
theorem getStats_count_failure_counterexample :
    statsFailStore.statsMsgCountError = some "messages count failed" ∧
    getStats (some "u") statsFailStore = Except.ok (DashboardStats.mk 0 1 0 0) := by
  constructor <;> rfl

/-- Claim C2 amended: if any of the four count queries fails, `getStats`
still returns normally; each failed query's component of the tuple is
defaulted to 0 (a partial tuple), and no error is propagated. -/
theorem getStats_count_failure_returns_ok (uid : String) (s : Store)
    (h : s.statsMsgCountError.isSome ∨ s.statsScamCountError.isSome ∨
         s.statsConvCountError.isSome ∨ s.statsIntelCountError.isSome) :
    ∃ stats, getStats (some uid) s = Except.ok stats ∧
      (s.statsMsgCountError.isSome → stats.totalMessages = 0) ∧
      (s.statsScamCountError.isSome → stats.totalScams = 0) ∧
      (s.statsConvCountError.isSome → stats.activeConversations = 0) ∧
      (s.statsIntelCountError.isSome → stats.intelligenceExtracted = 0) := by
  refine ⟨_, rfl, ?_, ?_, ?_, ?_⟩ <;> intro hs <;>
    obtain ⟨e, he⟩ := Option.isSome_iff_exists.mp hs <;>
    simp [countQuery, he]

/-- Claim C2 amended, witnessed at `statsFailStore`. -/
theorem getStats_count_failure_returns_ok_witness :
    ∃ stats, getStats (some "u") statsFailStore = Except.ok stats ∧
      (statsFailStore.statsMsgCountError.isSome → stats.totalMessages = 0) ∧
      (statsFailStore.statsScamCountError.isSome → stats.totalScams = 0) ∧
      (statsFailStore.statsConvCountError.isSome → stats.activeConversations = 0) ∧
      (statsFailStore.statsIntelCountError.isSome → stats.intelligenceExtracted = 0) :=
  getStats_count_failure_returns_ok "u" statsFailStore (Or.inl (by decide))

/-- Claim C6: with an identified caller and no failing count query,
`getStats` returns exactly the four store counts — total messages of the
caller, the caller's messages with the scam flag, the caller's
conversations with status active, and the caller's intelligence records. -/
theorem getStats_success (uid : String) (s : Store)
    (h1 : s.statsMsgCountError = none) (h2 : s.statsScamCountError = none)
    (h3 : s.statsConvCountError = none) (h4 : s.statsIntelCountError = none) :
    getStats (some uid) s = Except.ok (DashboardStats.mk
      ((s.messages.filter (fun m => m.user_id == uid)).length)
      ((s.messages.filter (fun m => m.user_id == uid && m.is_scam)).length)
      ((s.conversations.filter (fun c => c.user_id == uid && c.status == "active")).length)
      ((s.intelligence.filter (fun r => r.user_id == uid)).length)) := by
  simp [getStats, countQuery, h1, h2, h3, h4]

/-- Claim C6, witnessed at `demoStore`: 4 messages, 3 scams, 1 active
conversation, 2 intelligence records for user `u`. -/
theorem getStats_success_witness :
    getStats (some "u") demoStore = Except.ok (DashboardStats.mk 4 3 1 2) :=
  (getStats_success "u" demoStore rfl rfl rfl rfl).trans (by rfl)

/-- Claim C7: with an identified caller, a store failure of the
scam-type-distribution query or of the daily-detections query is propagated
unchanged (`Except.error` carrying the very same store error, hence no
wrapping, no retry against a recovered store, and no partial result). -/
theorem dashboard_store_failure_propagated (uid : String) (s : Store)
    (now : Int) (days : Nat) (e e' : Err)
    (h1 : s.distQueryError = some e) (h2 : s.dailyQueryError = some e') :
    getScamTypeDistribution (some uid) s = Except.error e ∧
    getDailyDetections (some uid) s now days = Except.error e' := by
  constructor <;> simp [getScamTypeDistribution, getDailyDetections, h1, h2]

/-- Claim C7, witnessed at `queryFailStore`. -/
theorem dashboard_store_failure_propagated_witness :
    getScamTypeDistribution (some "u") queryFailStore = Except.error "dist query failed" ∧
    getDailyDetections (some "u") queryFailStore 1735200000 7 = Except.error "daily query failed" :=
  dashboard_store_failure_propagated "u" queryFailStore 1735200000 7
    "dist query failed" "daily query failed" rfl rfl

/-- Subtracting `i` whole days from a timestamp moves its UTC date back by
exactly `i`. -/
theorem dayOf_shift (now : Int) (i : Nat) :
    dayOf (now - (i : Int) * msPerDay) = dayOf now - i := by
  unfold dayOf msPerDay
  omega

/-- Claim C1: with an identified caller and a successful query,
`getDailyDetections days` returns exactly `days` buckets; the bucket at
position `i` carries the UTC date `today - (days-1) + i`, so the dates run
from `today - (days-1)` to `today` inclusive, strictly ascending (hence
each date appears exactly once); and each bucket's count is the per-date
count of the retrieved scam-flagged rows, 0 when the date is absent
(`detectionsByDate` is the count-map lookup with the `|| 0` default). -/
theorem getDailyDetections_buckets (uid : String) (s : Store) (now : Int) (days : Nat)
    (h : s.dailyQueryError = none) :
    ∃ bs, getDailyDetections (some uid) s now days = Except.ok bs ∧
      bs.length = days ∧
      (∀ (i : Nat) (hi : i < bs.length),
        bs[i].1 = dayOf now - ((days : Int) - 1) + i ∧
        bs[i].2 = detectionsByDate (dailyRetrieved uid s now days) bs[i].1) ∧
      bs.Pairwise (fun a b => a.1 < b.1) := by
  refine ⟨((List.range days).reverse).map (fun (i : Nat) =>
      (dayOf (now - (i : Int) * msPerDay),
       detectionsByDate (dailyRetrieved uid s now days) (dayOf (now - (i : Int) * msPerDay)))),
    by simp [getDailyDetections, h], by simp, ?_, ?_⟩
  · intro i hi
    simp only [List.length_map, List.length_reverse, List.length_range] at hi
    rw [List.getElem_map, List.getElem_reverse, List.getElem_range]
    constructor
    · simp only [List.length_range]
      rw [dayOf_shift]
      omega
    · rfl
  · rw [List.pairwise_iff_getElem]
    intro i j hi hj hij
    simp only [List.length_map, List.length_reverse, List.length_range] at hi hj
    rw [List.getElem_map, List.getElem_reverse, List.getElem_range,
        List.getElem_map, List.getElem_reverse, List.getElem_range]
    simp only [List.length_range, dayOf_shift]
    omega

/-- Claim C1, witnessed at `demoStore` with `now` two hours into day 20
and `days = 3`. -/
theorem getDailyDetections_buckets_witness :
    ∃ bs, getDailyDetections (some "u") demoStore 1735200000 3 = Except.ok bs ∧
      bs.length = 3 ∧
      (∀ (i : Nat) (hi : i < bs.length),
        bs[i].1 = dayOf 1735200000 - ((3 : Int) - 1) + i ∧
        bs[i].2 = detectionsByDate (dailyRetrieved "u" demoStore 1735200000 3) bs[i].1) ∧
      bs.Pairwise (fun a b => a.1 < b.1) :=
  getDailyDetections_buckets "u" demoStore 1735200000 3 rfl

/-- Summing a per-key tally after one key `t` is bumped adds `count t` to
the plain sum. -/
theorem sum_map_ite_bump (dates : List Int) (t : Int) (g : Int → Nat) :
    (dates.map (fun d => if t = d then g d + 1 else g d)).sum
      = (dates.map g).sum + dates.count t := by
  induction dates with
  | nil => rfl
  | cons d ds ih =>
    simp only [List.map_cons, List.sum_cons, ih, List.count_cons]
    by_cases hd : t = d
    · simp [hd]
      omega
    · have : ¬(d == t) := by simp [Ne.symm hd]
      simp [hd, this]
      omega

/-- Partition lemma: summing, over a duplicate-free list of keys that
covers every element of `ts`, the number of elements of `ts` equal to the
key, yields the length of `ts`. -/
theorem sum_counts_partition (dates : List Int) (ts : List Int)
    (hnd : dates.Nodup) (hcov : ∀ t ∈ ts, t ∈ dates) :
    (dates.map (fun d => (ts.filter (fun t => t == d)).length)).sum = ts.length := by
  induction ts with
  | nil => simp
  | cons t ts ih =>
    have step : ∀ d : Int, ((t :: ts).filter (fun x => x == d)).length
        = if t = d then (ts.filter (fun x => x == d)).length + 1
          else (ts.filter (fun x => x == d)).length := by
      intro d
      by_cases hd : t = d <;> simp [List.filter_cons, hd]
    rw [List.map_congr_left (fun d _ => step d), sum_map_ite_bump,
        ih (fun x hx => hcov x (List.mem_cons_of_mem t hx)),
        List.count_eq_one_of_mem hnd (hcov t (List.mem_cons_self t ts))]
    simp

/-- A per-date bucket count is the count of the date among the dates of the
rows. -/
theorem detectionsByDate_eq_filter_days (data : List Message) (d : Int) :
    detectionsByDate data d
      = ((data.map (fun m => dayOf m.created_at)).filter (fun x => x == d)).length := by
  simp only [detectionsByDate, ← List.countP_eq_length_filter, List.countP_map]
  rfl

/-- Claim C3: with an identified caller and a successful query, if no
retrieved row is bucket-boundary ambiguous — i.e. every retrieved row's UTC
date lies inside the bucketed date range `today-(days-1) .. today` (the
query's cutoff `now - days` days sits strictly inside the day before the
range, and the query has no upper bound, so a row outside the range can be
retrieved yet belongs to no bucket) — then the bucket counts of
`getDailyDetections days` sum to the number of retrieved scam-flagged rows
with timestamp at or after the cutoff. -/
theorem getDailyDetections_sum (uid : String) (s : Store) (now : Int) (days : Nat)
    (h : s.dailyQueryError = none)
    (hamb : ∀ m ∈ dailyRetrieved uid s now days,
      dayOf now - ((days : Int) - 1) ≤ dayOf m.created_at ∧ dayOf m.created_at ≤ dayOf now) :
    ∃ bs, getDailyDetections (some uid) s now days = Except.ok bs ∧
      (bs.map Prod.snd).sum = (dailyRetrieved uid s now days).length := by
  refine ⟨((List.range days).reverse).map (fun (i : Nat) =>
      (dayOf (now - (i : Int) * msPerDay),
       detectionsByDate (dailyRetrieved uid s now days) (dayOf (now - (i : Int) * msPerDay)))),
    by simp [getDailyDetections, h], ?_⟩
  set data := dailyRetrieved uid s now days with hdata
  rw [List.map_map, List.map_reverse, List.sum_reverse]
  have step : ∀ i ∈ List.range days,
      (Prod.snd ∘ (fun (i : Nat) =>
        (dayOf (now - (i : Int) * msPerDay),
         detectionsByDate data (dayOf (now - (i : Int) * msPerDay))))) i
      = ((fun d => detectionsByDate data d) ∘ (fun (j : Nat) => dayOf now - (j : Int))) i := by
    intro i _
    simp [dayOf_shift]
  rw [List.map_congr_left step, ← List.map_map]
  have hnd : ((List.range days).map (fun (j : Nat) => dayOf now - (j : Int))).Nodup := by
    refine List.Nodup.map ?_ (List.nodup_range days)
    intro a b hab
    have hab2 : dayOf now - (a : Int) = dayOf now - (b : Int) := hab
    omega
  have hcov : ∀ t ∈ data.map (fun m => dayOf m.created_at),
      t ∈ (List.range days).map (fun (j : Nat) => dayOf now - (j : Int)) := by
    intro t ht
    obtain ⟨m, hm, rfl⟩ := List.mem_map.mp ht
    obtain ⟨h1, h2⟩ := hamb m hm
    refine List.mem_map.mpr ⟨(dayOf now - dayOf m.created_at).toNat, List.mem_range.mpr ?_, ?_⟩
    · omega
    · omega
  rw [List.map_congr_left (fun d _ => detectionsByDate_eq_filter_days data d),
      sum_counts_partition _ _ hnd hcov, List.length_map]

/-- Claim C3, witnessed at `demoStore` (`now` two hours into day 20,
`days = 3`): the two retrieved rows fall on days 20 and 18, both inside
the bucket range, and the bucket counts sum to 2. -/
theorem getDailyDetections_sum_witness :
    ∃ bs, getDailyDetections (some "u") demoStore 1735200000 3 = Except.ok bs ∧
      (bs.map Prod.snd).sum = (dailyRetrieved "u" demoStore 1735200000 3).length :=
  getDailyDetections_sum "u" demoStore 1735200000 3 rfl (by decide)

/-- Membership in the first-occurrence list is membership in the list. -/
theorem fo_mem (a : String) (ls : List String) : a ∈ firstOccurrences ls ↔ a ∈ ls := by
  induction ls with
  | nil => simp [firstOccurrences]
  | cons t ts ih =>
    by_cases hat : a = t <;> simp [firstOccurrences, List.mem_filter, ih, hat]

/-- Appending one element extends the first-occurrence list exactly when
the element is new. -/
theorem fo_concat (ls : List String) (t : String) :
    firstOccurrences (ls ++ [t])
      = if t ∈ ls then firstOccurrences ls else firstOccurrences ls ++ [t] := by
  induction ls with
  | nil => simp [firstOccurrences]
  | cons x xs ih =>
    by_cases hx : t ∈ xs
    · simp [firstOccurrences, ih, hx, List.mem_cons]
    · by_cases hxt : t = x
      · subst hxt
        simp [firstOccurrences, ih, hx, List.filter_append]
      · simp [firstOccurrences, ih, hx, hxt, List.filter_append, Ne.symm hxt]

/-- The first-occurrence list is duplicate-free. -/
theorem fo_nodup (ls : List String) : (firstOccurrences ls).Nodup := by
  induction ls with
  | nil => simp [firstOccurrences]
  | cons t ts ih =>
    refine List.Nodup.cons ?_ (List.Nodup.filter _ ih)
    intro hmem
    have := (List.mem_filter.mp hmem).2
    simp at this

/-- Bumping a key preserves the key sequence when the key is present and
appends it when absent. -/
theorem bumpKey_keys (d : List (String × Nat)) (t : String) :
    (bumpKey d t).map Prod.fst
      = if t ∈ d.map Prod.fst then d.map Prod.fst else d.map Prod.fst ++ [t] := by
  by_cases hmem : t ∈ d.map Prod.fst
  · have hany : d.any (fun p => p.1 == t) = true := by
      obtain ⟨p, hp, hfst⟩ := List.mem_map.mp hmem
      exact List.any_eq_true.mpr ⟨p, hp, by simp [hfst]⟩
    simp only [bumpKey, hany, if_true, hmem, List.map_map]
    refine List.map_congr_left ?_
    intro p _
    by_cases hpt : p.1 = t <;> simp [hpt]
  · have hany : d.any (fun p => p.1 == t) = false := by
      rw [List.any_eq_false]
      intro p hp
      simp only [beq_iff_eq]
      intro hpt
      exact hmem (List.mem_map.mpr ⟨p, hp, hpt⟩)
    simp [bumpKey, hany, hmem]

/-- The keys accumulated by folding `bumpKey` over a label sequence are
exactly the labels at their first occurrences, in order. -/
theorem foldl_bumpKey_keys (ls : List String) :
    ((ls.foldl bumpKey []).map Prod.fst) = firstOccurrences ls := by
  induction ls using List.reverseRecOn with
  | nil => rfl
  | append_singleton ls t ih =>
    rw [List.foldl_append, List.foldl_cons, List.foldl_nil, bumpKey_keys, ih, fo_concat]
    by_cases hmem : t ∈ ls <;> simp [hmem, fo_mem]

/-- Each accumulated entry's value is the number of occurrences of its key
in the label sequence. -/
theorem foldl_bumpKey_counts (ls : List String) :
    ∀ p ∈ ls.foldl bumpKey [], p.2 = ls.count p.1 := by
  induction ls using List.reverseRecOn with
  | nil => intro p hp; simp at hp
  | append_singleton ls t ih =>
    intro p hp
    rw [List.foldl_append, List.foldl_cons, List.foldl_nil] at hp
    by_cases hany : (ls.foldl bumpKey []).any (fun q => q.1 == t) = true
    · rw [bumpKey, if_pos hany] at hp
      obtain ⟨q, hq, rfl⟩ := List.mem_map.mp hp
      by_cases hqt : q.1 = t
      · simp only [hqt, beq_self_eq_true, if_true]
        simp [List.count_append, List.count_cons, hqt, ih q hq]
      · have : (q.1 == t) = false := by simp [hqt]
        simp only [this, Bool.false_eq_true, if_false]
        simp [List.count_append, List.count_cons, hqt, ih q hq]
    · rw [bumpKey, if_neg hany] at hp
      rcases List.mem_append.mp hp with hp | hp
      · have hpt : p.1 ≠ t := by
          intro hpt
          exact hany (List.any_eq_true.mpr ⟨p, hp, by simp [hpt]⟩)
        simp [List.count_append, List.count_cons, hpt, ih p hp]
      · have hp' : p = (t, 1) := by simpa using hp
        subst hp'
        have htls : t ∉ ls := by
          rw [← fo_mem, ← foldl_bumpKey_keys]
          intro hmem
          obtain ⟨q, hq, hfst⟩ := List.mem_map.mp hmem
          exact hany (List.any_eq_true.mpr ⟨q, hq, by simp [hfst]⟩)
        simp [List.count_append, List.count_cons, List.count_eq_zero.mpr htls]

/-- The row-by-row accumulation equals folding `bumpKey` over the kept
label sequence, for any starting accumulator. -/
theorem buildDistribution_foldl (data : List Message) (acc : List (String × Nat)) :
    data.foldl (fun dist m =>
      match m.scam_type with
      | some t => if t = "" then dist else bumpKey dist t
      | none => dist) acc
    = (labelsOf data).foldl bumpKey acc := by
  induction data generalizing acc with
  | nil => rfl
  | cons m data ih =>
    cases hm : m.scam_type with
    | none => simp [labelsOf, List.filterMap_cons, hm, ih, List.foldl_cons]
    | some t =>
      by_cases ht : t = "" <;>
        simp [labelsOf, List.filterMap_cons, hm, ht, List.filter_cons, ih, List.foldl_cons]

/-- `buildDistribution` through the kept label sequence. -/
theorem buildDistribution_eq (data : List Message) :
    buildDistribution data = (labelsOf data).foldl bumpKey [] :=
  buildDistribution_foldl data []

/-- Occurrences of a label among the non-null labels are the rows carrying
that label. -/
theorem count_filterMap_scam (data : List Message) (t : String) :
    (data.filterMap Message.scam_type).count t
      = (data.filter (fun m => m.scam_type == some t)).length := by
  induction data with
  | nil => rfl
  | cons m data ih =>
    cases hm : m.scam_type with
    | none => simp [List.filterMap_cons, hm, List.filter_cons, ih]
    | some a =>
      by_cases hat : a = t <;>
        simp [List.filterMap_cons, hm, List.filter_cons, List.count_cons, hat, ih]

/-- When no row carries the empty-string label, the kept label sequence is
the full non-null label sequence. -/
theorem labelsOf_eq_filterMap (data : List Message)
    (hlab : ∀ m ∈ data, m.scam_type ≠ some "") :
    labelsOf data = data.filterMap Message.scam_type := by
  unfold labelsOf
  refine List.filter_eq_self.mpr ?_
  intro a ha
  obtain ⟨m, hm, hma⟩ := List.mem_filterMap.mp ha
  have := hlab m hm
  simp only [Bool.not_eq_eq_eq_not, Bool.not_true, beq_eq_false_iff_ne, ne_eq]
  intro rfl1
  subst rfl1
  exact this hma

/-- Removing the empty-string-labelled rows leaves the kept label sequence
unchanged. -/
theorem labelsOf_drop_inv (data : List Message) :
    labelsOf (data.filter (fun m => !(m.scam_type == some ""))) = labelsOf data := by
  induction data with
  | nil => rfl
  | cons m data ih =>
    cases hm : m.scam_type with
    | none => simpa [labelsOf, List.filter_cons, List.filterMap_cons, hm] using ih
    | some a =>
      by_cases ha : a = "" <;>
        simpa [labelsOf, List.filter_cons, List.filterMap_cons, hm, ha] using ih

/-- Claim C4: with an identified caller, a successful query and every
retrieved label non-empty, the distribution carries the distinct labels in
first-occurrence order of the retrieved sequence (`firstOccurrences` of the
label sequence), each exactly once, each with the number of rows carrying
that label; in particular labels A, A, B yield `[(A,2), (B,1)]` in that
order, and an empty retrieved set yields `[]`. -/
theorem getScamTypeDistribution_grouping (uid : String) (s : Store)
    (h : s.distQueryError = none)
    (hlab : ∀ m ∈ distRetrieved uid s, m.scam_type ≠ some "") :
    ∃ dist, getScamTypeDistribution (some uid) s = Except.ok dist ∧
      dist.map Prod.fst = firstOccurrences ((distRetrieved uid s).filterMap Message.scam_type) ∧
      (dist.map Prod.fst).Nodup ∧
      (∀ p ∈ dist, p.2 = ((distRetrieved uid s).filter (fun m => m.scam_type == some p.1)).length) ∧
      getScamTypeDistribution (some "x") (Store.mk
        [Message.mk "x" true (some "A") 0, Message.mk "x" true (some "A") 0,
         Message.mk "x" true (some "B") 0]
        [] [] none none none none none none none)
        = Except.ok [("A", 2), ("B", 1)] ∧
      getScamTypeDistribution (some "x")
        (Store.mk [] [] [] none none none none none none none) = Except.ok [] := by
  refine ⟨buildDistribution (distRetrieved uid s),
    by simp [getScamTypeDistribution, h], ?_, ?_, ?_, by rfl, by rfl⟩
  · rw [buildDistribution_eq, foldl_bumpKey_keys, labelsOf_eq_filterMap _ hlab]
  · rw [buildDistribution_eq, foldl_bumpKey_keys]
    exact fo_nodup _
  · intro p hp
    rw [buildDistribution_eq] at hp
    have hv := foldl_bumpKey_counts _ p hp
    rw [labelsOf_eq_filterMap _ hlab, count_filterMap_scam] at hv
    exact hv

/-- Claim C4, witnessed at `demoStore` (labels phishing, phishing, crypto
for user `u`). -/
theorem getScamTypeDistribution_grouping_witness :
    ∃ dist, getScamTypeDistribution (some "u") demoStore = Except.ok dist ∧
      dist.map Prod.fst
        = firstOccurrences ((distRetrieved "u" demoStore).filterMap Message.scam_type) ∧
      (dist.map Prod.fst).Nodup ∧
      (∀ p ∈ dist,
        p.2 = ((distRetrieved "u" demoStore).filter (fun m => m.scam_type == some p.1)).length) ∧
      getScamTypeDistribution (some "x") (Store.mk
        [Message.mk "x" true (some "A") 0, Message.mk "x" true (some "A") 0,
         Message.mk "x" true (some "B") 0]
        [] [] none none none none none none none)
        = Except.ok [("A", 2), ("B", 1)] ∧
      getScamTypeDistribution (some "x")
        (Store.mk [] [] [] none none none none none none none) = Except.ok [] :=
  getScamTypeDistribution_grouping "u" demoStore rfl (by decide)

/-- Claim C9: with an identified caller and a successful query, rows whose
scam-type label is the empty string are retrieved (the store-side filter
only excludes null labels, as the membership conjunct shows), yet they
appear under no key of the distribution, create no key, and removing all
of them from the store leaves the distribution unchanged. -/
theorem getScamTypeDistribution_empty_labels (uid : String) (s : Store)
    (h : s.distQueryError = none) :
    ∃ dist, getScamTypeDistribution (some uid) s = Except.ok dist ∧
      (∀ p ∈ dist, p.1 ≠ "") ∧
      (∀ m ∈ s.messages, m.user_id = uid → m.is_scam = true → m.scam_type = some "" →
        m ∈ distRetrieved uid s) ∧
      getScamTypeDistribution (some uid) (dropEmptyLabelRows s) = Except.ok dist := by
  refine ⟨buildDistribution (distRetrieved uid s),
    by simp [getScamTypeDistribution, h], ?_, ?_, ?_⟩
  · intro p hp
    rw [buildDistribution_eq] at hp
    have hpk : p.1 ∈ ((labelsOf (distRetrieved uid s)).foldl bumpKey []).map Prod.fst :=
      List.mem_map_of_mem Prod.fst hp
    rw [foldl_bumpKey_keys, fo_mem] at hpk
    have := (List.mem_filter.mp hpk).2
    simpa using this
  · intro m hm h1 h2 h3
    simp [distRetrieved, List.mem_filter, hm, h1, h2, h3]
  · have hdrop : distRetrieved uid (dropEmptyLabelRows s)
        = (distRetrieved uid s).filter (fun m => !(m.scam_type == some "")) := by
      simp only [distRetrieved, dropEmptyLabelRows, List.filter_filter]
      refine List.filter_congr ?_
      intro m _
      rw [Bool.and_comm]
    have hinv : buildDistribution (distRetrieved uid (dropEmptyLabelRows s))
        = buildDistribution (distRetrieved uid s) := by
      rw [buildDistribution_eq, buildDistribution_eq, hdrop, labelsOf_drop_inv]
    have herr : (dropEmptyLabelRows s).distQueryError = none := h
    simp [getScamTypeDistribution, herr, hinv]

/-- Claim C9, witnessed at `emptyLabelStore` (two empty-labelled scam rows
and one phishing row). -/
theorem getScamTypeDistribution_empty_labels_witness :
    ∃ dist, getScamTypeDistribution (some "u") emptyLabelStore = Except.ok dist ∧
      (∀ p ∈ dist, p.1 ≠ "") ∧
      (∀ m ∈ emptyLabelStore.messages,
        m.user_id = "u" → m.is_scam = true → m.scam_type = some "" →
        m ∈ distRetrieved "u" emptyLabelStore) ∧
      getScamTypeDistribution (some "u") (dropEmptyLabelRows emptyLabelStore)
        = Except.ok dist :=
  getScamTypeDistribution_empty_labels "u" emptyLabelStore rfl
